import Mathlib

/-
Verification of the section parser of `src/docker.js` (Docker documentation
generator).  The core of interest is `Docker.prototype.parseSections`
(docker.js lines 194-252), a line-oriented state machine splitting a source
file into (comment, code) sections, together with the javascript rule set
from `Docker.prototype.languageParams` (lines 262-284).

JS strings are embedded as `List Char`.  The external dox renderer
(`dox.parseComments` composed with `doxTemplate`, wrapped in try/catch at
lines 220-227) is embedded as a parameter `dox : List Char → Option (List Char)`:
`some r` models a successful parse+render producing `r`, `none` models a
thrown exception caught at line 223.
-/

namespace Docker

/-- Whitespace class of the javascript regexp escape `\s`
(per ECMA-262: tab, lf, vt, ff, cr, space, nbsp, and the Unicode
space separators / BOM). -/
def isJsWs (c : Char) : Bool :=
  c = ' ' || c = '\t' || c = '\n' || c = '\x0b' || c = '\x0c' || c = '\r' ||
  c = '\u00A0' || c = '\u1680' || ('\u2000' ≤ c && c ≤ '\u200A') ||
  c = '\u2028' || c = '\u2029' || c = '\u202F' || c = '\u205F' ||
  c = '\u3000' || c = '\uFEFF'

/-- Matching of `/^\s*$/` (docker.js lines 234 and 242): the whole string is
whitespace. -/
def allWs (s : List Char) : Bool :=
  s.all isJsWs

/-- Boolean string-prefix test, used to embed anchored regexps. -/
def isPrefixB : List Char → List Char → Bool
  | [], _ => true
  | _ :: _, [] => false
  | p :: ps, c :: cs => p = c && isPrefixB ps cs

/-- Boolean substring test, used to embed unanchored regexps such as
`/\/\*/` and `/\*\//`. -/
def containsSub (pat : List Char) : List Char → Bool
  | [] => isPrefixB pat []
  | c :: cs => isPrefixB pat (c :: cs) || containsSub pat cs

/-- Embedding of `data.split('\n')` (docker.js line 195): javascript
`String.prototype.split` semantics, so the empty string yields `[""]` and a
trailing newline yields a trailing empty line. -/
def splitLines : List Char → List (List Char)
  | [] => [[]]
  | c :: cs =>
    if c = '\n' then [] :: splitLines cs
    else
      match splitLines cs with
      | [] => [[c]]
      | l :: ls => (c :: l) :: ls

/-- A parsed section (docker.js lines 200-203): accumulated comment text
`docs` and accumulated code text `code`. -/
structure Section where
  docs : List Char
  code : List Char
deriving DecidableEq, Repr

/-- The language-specific lexical parameters returned by
`Docker.prototype.languageParams` (docker.js lines 262-284), restricted to
the fields the section parser reads.  Regexps are embedded as Boolean
predicates on lines; `stripComment` embeds
`line.replace(params.commentRegex, '')` (line 245). -/
structure LanguageParams where
  multilineStart : List Char → Bool
  multilineEnd : List Char → Bool
  commentRegex : List Char → Bool
  commentsIgnore : List Char → Bool
  stripComment : List Char → List Char

/-- Matching of `/^\s*\/\/\s?/`: optional leading whitespace then `//`
(the trailing `\s?` is optional, so it does not constrain matching). -/
def commentRegexJs (s : List Char) : Bool :=
  isPrefixB [ '/', '/' ] (s.dropWhile isJsWs)

/-- Matching of `/^\s*\/\/=/`: optional leading whitespace then `//=`. -/
def commentsIgnoreJs (s : List Char) : Bool :=
  isPrefixB [ '/', '/', '=' ] (s.dropWhile isJsWs)

/-- Embedding of `line.replace(/^\s*\/\/\s?/, '')` (docker.js line 245):
remove the matched prefix (greedy `\s*`, then `//`, then at most one
whitespace character); a non-matching line is returned unchanged. -/
def stripCommentJs (s : List Char) : List Char :=
  if commentRegexJs s then
    match (s.dropWhile isJsWs).drop 2 with
    | [] => []
    | c :: cs => if isJsWs c then cs else c :: cs
  else s

/-- The javascript rule set of `languageParams` (docker.js lines 269-278):
`commentRegex` is `/^\s*\/\/\s?/`, `commentsIgnore` is `/^\s*\/\/=/`,
`multilineStart` is `/\/\*/`, `multilineEnd` is `/\*\//`. -/
def jsParams : LanguageParams where
  multilineStart := containsSub [ '/', '*' ]
  multilineEnd := containsSub [ '*', '/' ]
  commentRegex := commentRegexJs
  commentsIgnore := commentsIgnoreJs
  stripComment := stripCommentJs

/-- A dox renderer that always fails (every structured-comment parse throws),
exercising the catch branch at docker.js lines 223-226. -/
def doxNone : List Char → Option (List Char) :=
  fun _ => none

/-- The transient parse state of `parseSections` (docker.js lines 196-206):
the output list `sections`, the accumulator `current` (the local variable
`section`), `inMulti` (`inMultiLineComment`) and `multiLine`. -/
structure ParseState where
  sections : List Section
  current : Section
  inMulti : Bool
  multiLine : List Char
deriving DecidableEq, Repr

/-- The section-boundary flush shared by docker.js lines 233-236 and
241-244: if the current section has code, push it when its code or its docs
are not purely whitespace, and start a fresh section. -/
def flushSection (st : ParseState) : ParseState :=
  if st.current.code = [] then st
  else
    { st with
      sections :=
        if !allWs st.current.code || !allWs st.current.docs then
          st.sections ++ [st.current]
        else st.sections,
      current := { docs := [], code := [] } }

/-- One iteration of the line loop of `parseSections`
(docker.js lines 209-249). -/
def parseLine (P : LanguageParams) (dox : List Char → Option (List Char))
    (st : ParseState) (line : List Char) : ParseState :=
  if st.inMulti then
    if P.multilineEnd line then
      match dox (st.multiLine ++ line ++ [ '\n' ]) with
      | some r =>
        { st with
          current := { docs := st.current.docs ++ r, code := st.current.code },
          inMulti := false, multiLine := [] }
      | none =>
        { st with
          current :=
            { docs := st.current.docs ++ (st.multiLine ++ line ++ [ '\n' ]),
              code := st.current.code },
          inMulti := false, multiLine := [] }
    else
      { st with multiLine := st.multiLine ++ line ++ [ '\n' ] }
  else if P.multilineStart line && !P.multilineEnd line then
    { flushSection st with inMulti := true, multiLine := line }
  else if P.commentRegex line && !P.commentsIgnore line then
    { flushSection st with
      current :=
        { docs := (flushSection st).current.docs ++ P.stripComment line ++ [ '\n' ],
          code := (flushSection st).current.code } }
  else if !P.commentsIgnore line then
    { st with
      current :=
        { docs := st.current.docs,
          code := st.current.code ++ line ++ [ '\n' ] } }
  else st

/-- The initial parse state (docker.js lines 196-206). -/
def initState : ParseState :=
  { sections := [], current := { docs := [], code := [] },
    inMulti := false, multiLine := [] }

/-- Embedding of `Docker.prototype.parseSections` (docker.js lines 194-252):
split the data into lines, run the line loop, and push the final current
section unconditionally (line 250). -/
def parseSections (P : LanguageParams) (dox : List Char → Option (List Char))
    (data : List Char) : List Section :=
  let st := (splitLines data).foldl (parseLine P dox) initState
  st.sections ++ [st.current]

/-- Instrumented parse state: identical to `ParseState` except that every
section flushed at a boundary is recorded in `chunks` together with a flag
telling whether the push at docker.js line 234 or 242 kept it (`true`) or
dropped it (`false`). -/
structure ParseStateI where
  chunks : List (Section × Bool)
  current : Section
  inMulti : Bool
  multiLine : List Char
deriving DecidableEq, Repr

/-- Instrumented flush: same branching as `flushSection`, but records the
flushed section together with its keep flag. -/
def flushSectionI (st : ParseStateI) : ParseStateI :=
  if st.current.code = [] then st
  else
    { st with
      chunks :=
        st.chunks ++ [(st.current, !allWs st.current.code || !allWs st.current.docs)],
      current := { docs := [], code := [] } }

/-- Instrumented line loop, mirroring `parseLine` step by step. -/
def parseLineI (P : LanguageParams) (dox : List Char → Option (List Char))
    (st : ParseStateI) (line : List Char) : ParseStateI :=
  if st.inMulti then
    if P.multilineEnd line then
      match dox (st.multiLine ++ line ++ [ '\n' ]) with
      | some r =>
        { st with
          current := { docs := st.current.docs ++ r, code := st.current.code },
          inMulti := false, multiLine := [] }
      | none =>
        { st with
          current :=
            { docs := st.current.docs ++ (st.multiLine ++ line ++ [ '\n' ]),
              code := st.current.code },
          inMulti := false, multiLine := [] }
    else
      { st with multiLine := st.multiLine ++ line ++ [ '\n' ] }
  else if P.multilineStart line && !P.multilineEnd line then
    { flushSectionI st with inMulti := true, multiLine := line }
  else if P.commentRegex line && !P.commentsIgnore line then
    { flushSectionI st with
      current :=
        { docs := (flushSectionI st).current.docs ++ P.stripComment line ++ [ '\n' ],
          code := (flushSectionI st).current.code } }
  else if !P.commentsIgnore line then
    { st with
      current :=
        { docs := st.current.docs,
          code := st.current.code ++ line ++ [ '\n' ] } }
  else st

/-- The initial instrumented parse state. -/
def initStateI : ParseStateI :=
  { chunks := [], current := { docs := [], code := [] },
    inMulti := false, multiLine := [] }

/-- Instrumented run of `parseSections`: all flushed sections with their
keep flags, plus the final current section (always kept, docker.js
line 250). -/
def parseChunks (P : LanguageParams) (dox : List Char → Option (List Char))
    (data : List Char) : List (Section × Bool) :=
  let st := (splitLines data).foldl (parseLineI P dox) initStateI
  st.chunks ++ [(st.current, true)]

/-- Drop the dropped chunks and forget the flags. -/
def keptChunks (cs : List (Section × Bool)) : List Section :=
  (cs.filter (fun c => c.2)).map (fun c => c.1)

/-- Forget the instrumentation of a `ParseStateI`. -/
def eraseI (st : ParseStateI) : ParseState :=
  { sections := keptChunks st.chunks, current := st.current,
    inMulti := st.inMulti, multiLine := st.multiLine }

/-- The lines of the input that the line loop routes to the code branch
(docker.js lines 246-248): lines processed outside an open multi-line
block that neither open a multi-line block, nor are single-line comments,
nor match the ignore pattern.  The Boolean argument replays the
`inMultiLineComment` flag. -/
def codeLines (P : LanguageParams) : Bool → List (List Char) → List (List Char)
  | _, [] => []
  | true, l :: ls => codeLines P (!P.multilineEnd l) ls
  | false, l :: ls =>
    if P.multilineStart l && !P.multilineEnd l then codeLines P true ls
    else if P.commentRegex l && !P.commentsIgnore l then codeLines P false ls
    else if !P.commentsIgnore l then l :: codeLines P false ls
    else codeLines P false ls

/-- The code text accumulated so far by an instrumented state: code of all
flushed chunks (kept or dropped), then the current section's code. -/
def joinCodes (st : ParseStateI) : List Char :=
  (st.chunks.map (fun c => c.1.code)).flatten ++ st.current.code

/-- Branch characterization: inside a multi-line block, a line not matching
`multilineEnd` is only appended to the buffer. -/
theorem parseLine_multi_cont (P : LanguageParams) (dox : List Char → Option (List Char))
    (st : ParseState) (l : List Char)
    (h1 : st.inMulti = true) (h2 : P.multilineEnd l = false) :
    parseLine P dox st l = { st with multiLine := st.multiLine ++ l ++ [ '\n' ] } := by
  simp [parseLine, h1, h2]

/-- Branch characterization: a line closing a multi-line block whose dox
render succeeds appends the rendered text to the docs. -/
theorem parseLine_multi_end_some (P : LanguageParams) (dox : List Char → Option (List Char))
    (st : ParseState) (l r : List Char)
    (h1 : st.inMulti = true) (h2 : P.multilineEnd l = true)
    (h3 : dox (st.multiLine ++ l ++ [ '\n' ]) = some r) :
    parseLine P dox st l =
      { st with
        current := { docs := st.current.docs ++ r, code := st.current.code },
        inMulti := false, multiLine := [] } := by
  have h3a : dox (st.multiLine ++ (l ++ [ '\n' ])) = some r := by
    rw [← List.append_assoc]; exact h3
  simp [parseLine, h1, h2, h3a]

/-- Branch characterization: a line closing a multi-line block whose dox
render fails appends the raw buffer to the docs. -/
theorem parseLine_multi_end_none (P : LanguageParams) (dox : List Char → Option (List Char))
    (st : ParseState) (l : List Char)
    (h1 : st.inMulti = true) (h2 : P.multilineEnd l = true)
    (h3 : dox (st.multiLine ++ l ++ [ '\n' ]) = none) :
    parseLine P dox st l =
      { st with
        current :=
          { docs := st.current.docs ++ (st.multiLine ++ l ++ [ '\n' ]),
            code := st.current.code },
        inMulti := false, multiLine := [] } := by
  have h3a : dox (st.multiLine ++ (l ++ [ '\n' ])) = none := by
    rw [← List.append_assoc]; exact h3
  simp [parseLine, h1, h2, h3a]

/-- Branch characterization: a line opening a multi-line block flushes and
enters the multi-line state with the buffer initialized to the bare line. -/
theorem parseLine_start (P : LanguageParams) (dox : List Char → Option (List Char))
    (st : ParseState) (l : List Char)
    (h1 : st.inMulti = false) (h2 : (P.multilineStart l && !P.multilineEnd l) = true) :
    parseLine P dox st l = { flushSection st with inMulti := true, multiLine := l } := by
  simp [parseLine, h1, h2]

/-- Branch characterization: a single-line comment line flushes and appends
the stripped remainder to the docs. -/
theorem parseLine_comment (P : LanguageParams) (dox : List Char → Option (List Char))
    (st : ParseState) (l : List Char)
    (h1 : st.inMulti = false) (h2 : (P.multilineStart l && !P.multilineEnd l) = false)
    (h3 : (P.commentRegex l && !P.commentsIgnore l) = true) :
    parseLine P dox st l =
      { flushSection st with
        current :=
          { docs := (flushSection st).current.docs ++ P.stripComment l ++ [ '\n' ],
            code := (flushSection st).current.code } } := by
  simp [parseLine, h1, h2, h3]

/-- Branch characterization: any other non-ignored line is appended to the
code. -/
theorem parseLine_code (P : LanguageParams) (dox : List Char → Option (List Char))
    (st : ParseState) (l : List Char)
    (h1 : st.inMulti = false) (h2 : (P.multilineStart l && !P.multilineEnd l) = false)
    (h3 : (P.commentRegex l && !P.commentsIgnore l) = false)
    (h4 : P.commentsIgnore l = false) :
    parseLine P dox st l =
      { st with
        current :=
          { docs := st.current.docs,
            code := st.current.code ++ l ++ [ '\n' ] } } := by
  have hc : P.commentRegex l = false := by
    cases hcr : P.commentRegex l
    · rfl
    · simp [hcr, h4] at h3
  simp [parseLine, h1, h2, hc, h4]

/-- Branch characterization: an ignored line that hits no earlier branch
leaves the state unchanged. -/
theorem parseLine_skip (P : LanguageParams) (dox : List Char → Option (List Char))
    (st : ParseState) (l : List Char)
    (h1 : st.inMulti = false) (h2 : (P.multilineStart l && !P.multilineEnd l) = false)
    (h4 : P.commentsIgnore l = true) :
    parseLine P dox st l = st := by
  simp [parseLine, h1, h2, h4]

/-- `keptChunks` distributes over append. -/
theorem keptChunks_append (a b : List (Section × Bool)) :
    keptChunks (a ++ b) = keptChunks a ++ keptChunks b := by
  simp [keptChunks]

/-- Forgetting the instrumentation commutes with the flush. -/
theorem eraseI_flush (st : ParseStateI) :
    eraseI (flushSectionI st) = flushSection (eraseI st) := by
  unfold flushSectionI flushSection
  by_cases hc : st.current.code = []
  · simp [eraseI, hc]
  · cases hw : (!allWs st.current.code || !allWs st.current.docs) <;>
      simp [eraseI, hc, hw, keptChunks]

/-- Forgetting the instrumentation commutes with the line loop. -/
theorem eraseI_parseLine (P : LanguageParams) (dox : List Char → Option (List Char))
    (st : ParseStateI) (l : List Char) :
    eraseI (parseLineI P dox st l) = parseLine P dox (eraseI st) l := by
  cases h1 : st.inMulti
  · cases h2 : (P.multilineStart l && !P.multilineEnd l)
    · cases h3 : (P.commentRegex l && !P.commentsIgnore l)
      · cases h4 : P.commentsIgnore l
        · have hcr : P.commentRegex l = false := by
            cases hx : P.commentRegex l
            · rfl
            · simp [hx, h4] at h3
          simp [parseLineI, parseLine, eraseI, h1, h2, hcr, h4]
        · simp [parseLineI, parseLine, eraseI, h1, h2, h4]
      · by_cases hc : st.current.code = []
        · simp [parseLineI, parseLine, eraseI, flushSectionI, flushSection,
            h1, h2, h3, hc]
        · cases hw : (!allWs st.current.code || !allWs st.current.docs) <;>
            simp [parseLineI, parseLine, eraseI, flushSectionI, flushSection,
              keptChunks, h1, h2, h3, hc, hw]
    · by_cases hc : st.current.code = []
      · simp [parseLineI, parseLine, eraseI, flushSectionI, flushSection,
          h1, h2, hc]
      · cases hw : (!allWs st.current.code || !allWs st.current.docs) <;>
          simp [parseLineI, parseLine, eraseI, flushSectionI, flushSection,
            keptChunks, h1, h2, hc, hw]
  · cases h2 : P.multilineEnd l
    · simp [parseLineI, parseLine, eraseI, h1, h2]
    · rcases hd : dox (st.multiLine ++ (l ++ [ '\n' ])) with _ | r <;>
        simp [parseLineI, parseLine, eraseI, h1, h2, hd]

/-- Forgetting the instrumentation commutes with the whole line loop. -/
theorem eraseI_foldl (P : LanguageParams) (dox : List Char → Option (List Char))
    (ls : List (List Char)) (st : ParseStateI) :
    eraseI (ls.foldl (parseLineI P dox) st) = ls.foldl (parseLine P dox) (eraseI st) := by
  induction ls generalizing st with
  | nil => rfl
  | cons l ls ih =>
    rw [List.foldl_cons, List.foldl_cons, ih, eraseI_parseLine]

/-- `parseSections` returns exactly the kept chunks of the instrumented
run, in order. -/
theorem parseSections_eq_keptChunks (P : LanguageParams)
    (dox : List Char → Option (List Char)) (data : List Char) :
    parseSections P dox data = keptChunks (parseChunks P dox data) := by
  have h := eraseI_foldl P dox (splitLines data) initStateI
  have hinit : eraseI initStateI = initState := rfl
  rw [hinit] at h
  unfold parseSections parseChunks
  rw [← h]
  rw [keptChunks_append]
  simp [eraseI, keptChunks]

/-- The instrumented flush does not change the multi-line flag. -/
theorem flushSectionI_inMulti (st : ParseStateI) :
    (flushSectionI st).inMulti = st.inMulti := by
  unfold flushSectionI; split <;> rfl

/-- Branch characterization of the instrumented loop: a line opening a
multi-line block. -/
theorem parseLineI_start (P : LanguageParams) (dox : List Char → Option (List Char))
    (st : ParseStateI) (l : List Char)
    (h1 : st.inMulti = false) (h2 : (P.multilineStart l && !P.multilineEnd l) = true) :
    parseLineI P dox st l = { flushSectionI st with inMulti := true, multiLine := l } := by
  simp [parseLineI, h1, h2]

/-- Branch characterization of the instrumented loop: a single-line comment
line. -/
theorem parseLineI_comment (P : LanguageParams) (dox : List Char → Option (List Char))
    (st : ParseStateI) (l : List Char)
    (h1 : st.inMulti = false) (h2 : (P.multilineStart l && !P.multilineEnd l) = false)
    (h3 : (P.commentRegex l && !P.commentsIgnore l) = true) :
    parseLineI P dox st l =
      { flushSectionI st with
        current :=
          { docs := (flushSectionI st).current.docs ++ P.stripComment l ++ [ '\n' ],
            code := (flushSectionI st).current.code } } := by
  simp [parseLineI, h1, h2, h3]

/-- The flush moves code between chunk list and current section without
changing the accumulated code text. -/
theorem joinCodes_flush (st : ParseStateI) :
    joinCodes (flushSectionI st) = joinCodes st := by
  unfold flushSectionI joinCodes
  by_cases hc : st.current.code = []
  · simp [hc]
  · simp [hc]

/-- The accumulated code text of a run of the instrumented line loop is the
prior accumulated code text followed by the code-branch lines, each with a
newline appended. -/
theorem joinCodes_foldl (P : LanguageParams) (dox : List Char → Option (List Char))
    (ls : List (List Char)) : ∀ st : ParseStateI,
    joinCodes (ls.foldl (parseLineI P dox) st)
      = joinCodes st ++ ((codeLines P st.inMulti ls).map (fun l => l ++ [ '\n' ])).flatten := by
  induction ls with
  | nil => intro st; cases h : st.inMulti <;> simp [codeLines, h]
  | cons l ls ih =>
    intro st
    rw [List.foldl_cons, ih]
    cases h1 : st.inMulti
    · cases h2 : (P.multilineStart l && !P.multilineEnd l)
      · cases h4 : P.commentsIgnore l
        · cases hcr : P.commentRegex l
          · -- code branch
            simp [parseLineI, joinCodes, codeLines, h1, h2, hcr, h4]
          · -- single-line comment branch
            rw [parseLineI_comment P dox st l h1 h2 (by simp [hcr, h4])]
            have hj : joinCodes
                { flushSectionI st with
                  current :=
                    { docs := (flushSectionI st).current.docs ++ P.stripComment l ++ [ '\n' ],
                      code := (flushSectionI st).current.code } } = joinCodes st := by
              rw [← joinCodes_flush st]; rfl
            rw [hj]
            simp [codeLines, flushSectionI_inMulti, h1, h2, hcr, h4]
        · -- ignored line
          simp [parseLineI, joinCodes, codeLines, h1, h2, h4]
      · -- multi-line start
        rw [parseLineI_start P dox st l h1 h2]
        have hj : joinCodes { flushSectionI st with inMulti := true, multiLine := l }
            = joinCodes st := by
          rw [← joinCodes_flush st]; rfl
        rw [hj]
        simp [codeLines, h1, h2]
    · cases h2 : P.multilineEnd l
      · simp [parseLineI, joinCodes, codeLines, h1, h2]
      · rcases hd : dox (st.multiLine ++ (l ++ [ '\n' ])) with _ | r <;>
          simp [parseLineI, joinCodes, codeLines, h1, h2, hd]

/-- The chunk list of one instrumented step either is unchanged or is the
chunk list of the flush. -/
theorem parseLineI_chunks_cases (P : LanguageParams) (dox : List Char → Option (List Char))
    (st : ParseStateI) (l : List Char) :
    (parseLineI P dox st l).chunks = st.chunks ∨
    (parseLineI P dox st l).chunks = (flushSectionI st).chunks := by
  cases h1 : st.inMulti
  · cases h2 : (P.multilineStart l && !P.multilineEnd l)
    · cases h4 : P.commentsIgnore l
      · cases hcr : P.commentRegex l
        · left; simp [parseLineI, h1, h2, hcr, h4]
        · right; rw [parseLineI_comment P dox st l h1 h2 (by simp [hcr, h4])]
      · left; simp [parseLineI, h1, h2, h4]
    · right; rw [parseLineI_start P dox st l h1 h2]
  · cases h2 : P.multilineEnd l
    · left; simp [parseLineI, h1, h2]
    · rcases hd : dox (st.multiLine ++ (l ++ [ '\n' ])) with _ | r <;>
        · left; simp [parseLineI, h1, h2, hd]

/-- The flush preserves the invariant that every dropped chunk is purely
whitespace in both code and docs. -/
theorem flushSectionI_dropped_ws (st : ParseStateI)
    (h : ∀ c ∈ st.chunks, c.2 = false → allWs c.1.code = true ∧ allWs c.1.docs = true) :
    ∀ c ∈ (flushSectionI st).chunks, c.2 = false →
      allWs c.1.code = true ∧ allWs c.1.docs = true := by
  unfold flushSectionI
  by_cases hc : st.current.code = []
  · simpa [hc] using h
  · intro c hmem hfl
    simp [hc] at hmem
    rcases hmem with hmem | rfl
    · exact h c hmem hfl
    · cases hx : allWs st.current.code <;> cases hy : allWs st.current.docs <;>
        simp_all

/-- Whole-run version of `flushSectionI_dropped_ws`. -/
theorem foldl_dropped_ws (P : LanguageParams) (dox : List Char → Option (List Char))
    (ls : List (List Char)) : ∀ st : ParseStateI,
    (∀ c ∈ st.chunks, c.2 = false → allWs c.1.code = true ∧ allWs c.1.docs = true) →
    ∀ c ∈ (ls.foldl (parseLineI P dox) st).chunks, c.2 = false →
      allWs c.1.code = true ∧ allWs c.1.docs = true := by
  induction ls with
  | nil => intro st h; exact h
  | cons l ls ih =>
    intro st h
    rw [List.foldl_cons]
    refine ih _ ?_
    rcases parseLineI_chunks_cases P dox st l with hcase | hcase
    · rw [hcase]; exact h
    · rw [hcase]; exact flushSectionI_dropped_ws st h

/-- The section list of one step either is unchanged or is the section
list of the flush. -/
theorem parseLine_sections_cases (P : LanguageParams) (dox : List Char → Option (List Char))
    (st : ParseState) (l : List Char) :
    (parseLine P dox st l).sections = st.sections ∨
    (parseLine P dox st l).sections = (flushSection st).sections := by
  cases h1 : st.inMulti
  · cases h2 : (P.multilineStart l && !P.multilineEnd l)
    · cases h4 : P.commentsIgnore l
      · cases hcr : P.commentRegex l
        · left; simp [parseLine, h1, h2, hcr, h4]
        · right; rw [parseLine_comment P dox st l h1 h2 (by simp [hcr, h4])]
      · left; simp [parseLine, h1, h2, h4]
    · right; rw [parseLine_start P dox st l h1 h2]
  · cases h2 : P.multilineEnd l
    · left; simp [parseLine, h1, h2]
    · rcases hd : dox (st.multiLine ++ (l ++ [ '\n' ])) with _ | r <;>
        · left; simp [parseLine, h1, h2, hd]

/-- The flush never pushes a section with empty code. -/
theorem flushSection_code_ne (st : ParseState)
    (h : ∀ s ∈ st.sections, s.code ≠ []) :
    ∀ s ∈ (flushSection st).sections, s.code ≠ [] := by
  unfold flushSection
  by_cases hc : st.current.code = []
  · simpa [hc] using h
  · cases hw : (!allWs st.current.code || !allWs st.current.docs)
    · simpa [hc, hw] using h
    · intro s hmem
      simp [hc, hw] at hmem
      rcases hmem with hmem | rfl
      · exact h s hmem
      · exact hc

/-- Whole-run version of `flushSection_code_ne`. -/
theorem foldl_sections_code_ne (P : LanguageParams) (dox : List Char → Option (List Char))
    (ls : List (List Char)) : ∀ st : ParseState,
    (∀ s ∈ st.sections, s.code ≠ []) →
    ∀ s ∈ (ls.foldl (parseLine P dox) st).sections, s.code ≠ [] := by
  induction ls with
  | nil => intro st h; exact h
  | cons l ls ih =>
    intro st h
    rw [List.foldl_cons]
    refine ih _ ?_
    rcases parseLine_sections_cases P dox st l with hcase | hcase
    · rw [hcase]; exact h
    · rw [hcase]; exact flushSection_code_ne st h

/-- Flushing a section with no code is the identity. -/
theorem flushSection_empty (st : ParseState) (hc : st.current.code = []) :
    flushSection st = st := by
  simp [flushSection, hc]

/-- Flushing a purely-whitespace section drops it silently. -/
theorem flushSection_sections_ws (st : ParseState) (hc : ¬st.current.code = [])
    (ha : allWs st.current.code = true) (hb : allWs st.current.docs = true) :
    (flushSection st).sections = st.sections := by
  simp [flushSection, hc, ha, hb]

/-- Flushing a not-all-whitespace section pushes it. -/
theorem flushSection_sections_keep (st : ParseState) (hc : ¬st.current.code = [])
    (h : allWs st.current.code = false ∨ allWs st.current.docs = false) :
    (flushSection st).sections = st.sections ++ [st.current] := by
  rcases h with h | h <;> simp [flushSection, hc, h]

/-- At a section boundary (multi-line opener or single-line comment), the
output section list is that of the flush. -/
theorem parseLine_boundary_sections (P : LanguageParams)
    (dox : List Char → Option (List Char)) (st : ParseState) (l : List Char)
    (h1 : st.inMulti = false)
    (hb : (P.multilineStart l && !P.multilineEnd l) = true ∨
          (P.commentRegex l && !P.commentsIgnore l) = true) :
    (parseLine P dox st l).sections = (flushSection st).sections := by
  rcases hb with hb | hb
  · rw [parseLine_start P dox st l h1 hb]
  · cases h2 : (P.multilineStart l && !P.multilineEnd l)
    · rw [parseLine_comment P dox st l h1 h2 hb]
    · rw [parseLine_start P dox st l h1 h2]

/-- Over a run of single-line comment lines, a state with no accumulated
code keeps its section list, stays out of the multi-line state, and keeps
an empty code accumulator. -/
theorem commentRun_foldl (P : LanguageParams) (dox : List Char → Option (List Char))
    (ls : List (List Char)) : ∀ st : ParseState,
    st.inMulti = false → st.current.code = [] →
    (∀ l ∈ ls, (P.multilineStart l && !P.multilineEnd l) = false ∧
               (P.commentRegex l && !P.commentsIgnore l) = true) →
    (ls.foldl (parseLine P dox) st).sections = st.sections ∧
    (ls.foldl (parseLine P dox) st).inMulti = false ∧
    (ls.foldl (parseLine P dox) st).current.code = [] := by
  induction ls with
  | nil => intro st h1 h2 _; exact ⟨rfl, h1, h2⟩
  | cons l ls ih =>
    intro st h1 h2 hall
    rw [List.foldl_cons]
    obtain ⟨ha, hb⟩ := hall l (by simp)
    have hstep := parseLine_comment P dox st l h1 ha hb
    rw [flushSection_empty st h2] at hstep
    rw [hstep]
    exact ih _ h1 h2 (fun x hx => hall x (by simp [hx]))

/-- The flush does not change the multi-line flag. -/
theorem flushSection_inMulti (st : ParseState) :
    (flushSection st).inMulti = st.inMulti := by
  unfold flushSection; split <;> rfl

/-- The flush does not change the multi-line buffer. -/
theorem flushSection_multiLine (st : ParseState) :
    (flushSection st).multiLine = st.multiLine := by
  unfold flushSection; split <;> rfl

/-- After a flush the code accumulator is always empty. -/
theorem flushSection_current_code (st : ParseState) :
    (flushSection st).current.code = [] := by
  unfold flushSection
  by_cases hc : st.current.code = [] <;> simp [hc]

/-- A flush either keeps the section list or pushes the current section. -/
theorem flushSection_sections_cases (st : ParseState) :
    (flushSection st).sections = st.sections ∨
    (flushSection st).sections = st.sections ++ [st.current] := by
  unfold flushSection
  by_cases hc : st.current.code = []
  · left; simp [hc]
  · cases hw : (!allWs st.current.code || !allWs st.current.docs)
    · left; simp [hc, hw]
    · right; simp [hc, hw]

/-- Claim C3: for every input text, including the empty string,
`parseSections` returns a non-empty sequence of sections — the final
current section is pushed unconditionally after the line loop, regardless
of whether its docText and codeText are empty. -/
theorem c3_nonempty (P : LanguageParams) (dox : List Char → Option (List Char))
    (data : List Char) : parseSections P dox data ≠ [] := by
  simp [parseSections]

/-- Claim C5 counterexample: on the input "// hello\nvar x = 1;\n" with the
javascript rules, the returned sections are not one section with docText
"hello\n" and codeText "var x = 1;\n" — the codeText gains an extra
newline from the empty final line produced by split. -/
theorem c5_cex :
    parseSections jsParams doxNone ("// hello\nvar x = 1;\n".data) ≠
      [{ docs := "hello\n".data, code := "var x = 1;\n".data }] := by
  decide

/-- Claim C5 amended: on the input "// hello\nvar x = 1;\n" with the
javascript rules, `parseSections` returns exactly one section with docText
"hello\n" and codeText "var x = 1;\n\n" (the trailing empty line contributed
by the final newline of the input adds one more newline to the code). -/
theorem c5_example (dox : List Char → Option (List Char)) :
    parseSections jsParams dox ("// hello\nvar x = 1;\n".data) =
      [{ docs := "hello\n".data, code := "var x = 1;\n\n".data }] := by
  rfl

/-- Claim C6: a multi-line block opened but never closed loses its content:
while the multi-line state is open, every non-closing line only grows the
buffer (the sections and the current section are untouched, so the line is
absorbed rather than emitted as code), and on the spec's example
"/\* never closes\nvar x = 1;\n" the whole input vanishes — the single
returned section has empty docText and codeText. -/
theorem c6_unterminated :
    (∀ (P : LanguageParams) (dox : List Char → Option (List Char))
        (st : ParseState) (l : List Char),
      st.inMulti = true → P.multilineEnd l = false →
      parseLine P dox st l = { st with multiLine := st.multiLine ++ l ++ [ '\n' ] }) ∧
    ∀ dox : List Char → Option (List Char),
      parseSections jsParams dox ("/* never closes\nvar x = 1;\n".data) =
        [{ docs := [], code := [] }] := by
  exact ⟨parseLine_multi_cont, fun dox => rfl⟩

/-- Witness for C6: inside an open multi-line block, the code line
"var x = 1;" is absorbed into the buffer. -/
theorem c6_witness :
    ParseState.inMulti
      { sections := [], current := { docs := [], code := [] },
        inMulti := true, multiLine := "/* a".data } = true ∧
    parseLine jsParams doxNone
      { sections := [], current := { docs := [], code := [] },
        inMulti := true, multiLine := "/* a".data } ("var x = 1;".data) =
      { sections := [], current := { docs := [], code := [] },
        inMulti := true,
        multiLine := "/* a".data ++ "var x = 1;".data ++ [ '\n' ] } :=
  ⟨rfl, c6_unterminated.1 jsParams doxNone _ _ rfl (by decide)⟩

/-- Claim C7: when the structured-comment (dox) parse of a closed
multi-line buffer fails, no exception escapes: the raw buffer (start line,
content and closing line) is appended verbatim to the current section's
docText, the multi-line state is exited, and parsing continues; on a
concrete malformed block the returned section's docText is exactly the raw
buffer text. -/
theorem c7_dox_fallback :
    (∀ (P : LanguageParams) (dox : List Char → Option (List Char))
        (st : ParseState) (l : List Char),
      st.inMulti = true → P.multilineEnd l = true →
      dox (st.multiLine ++ l ++ [ '\n' ]) = none →
      parseLine P dox st l =
        { st with
          current :=
            { docs := st.current.docs ++ (st.multiLine ++ l ++ [ '\n' ]),
              code := st.current.code },
          inMulti := false, multiLine := [] }) ∧
    parseSections jsParams doxNone ("/* x\n*/\ny".data) =
      [{ docs := "/* x*/\n".data, code := "y\n".data }] := by
  exact ⟨parseLine_multi_end_none, by decide⟩

/-- Witness for C7: closing a block whose dox render fails appends the raw
buffer to the docs. -/
theorem c7_witness :
    ParseState.inMulti
      { sections := [], current := { docs := [], code := [] },
        inMulti := true, multiLine := "/* x".data } = true ∧
    parseLine jsParams doxNone
      { sections := [], current := { docs := [], code := [] },
        inMulti := true, multiLine := "/* x".data } ("*/".data) =
      { sections := [],
        current := { docs := [] ++ ("/* x".data ++ "*/".data ++ [ '\n' ]), code := [] },
        inMulti := false, multiLine := [] } :=
  ⟨rfl, c7_dox_fallback.1 jsParams doxNone _ _ rfl (by decide) rfl⟩

/-- Claim C8: a line outside an open multi-line block that matches both the
multilineStart and the multilineEnd pattern (a self-closing one-liner) does
not enter the multi-line comment state and does not start a multi-line
buffer. -/
theorem c8_self_closing (P : LanguageParams) (dox : List Char → Option (List Char))
    (st : ParseState) (l : List Char)
    (h1 : st.inMulti = false)
    (h2 : P.multilineStart l = true) (h3 : P.multilineEnd l = true) :
    (parseLine P dox st l).inMulti = false ∧
    (parseLine P dox st l).multiLine = st.multiLine := by
  have hb : (P.multilineStart l && !P.multilineEnd l) = false := by simp [h2, h3]
  cases h4 : P.commentsIgnore l
  · cases hcr : P.commentRegex l
    · rw [parseLine_code P dox st l h1 hb (by simp [hcr]) h4]
      exact ⟨h1, rfl⟩
    · rw [parseLine_comment P dox st l h1 hb (by simp [hcr, h4])]
      constructor
      · show (flushSection st).inMulti = false
        rw [flushSection_inMulti]; exact h1
      · show (flushSection st).multiLine = st.multiLine
        exact flushSection_multiLine st
  · rw [parseLine_skip P dox st l h1 hb h4]
    exact ⟨h1, rfl⟩

/-- Witness for C8: the self-closing one-liner "/\* x \*/" does not open a
multi-line block. -/
theorem c8_witness :
    (parseLine jsParams doxNone initState ("/* x */".data)).inMulti = false ∧
    (parseLine jsParams doxNone initState ("/* x */".data)).multiLine =
      initState.multiLine :=
  c8_self_closing jsParams doxNone initState ("/* x */".data) rfl (by decide) (by decide)

/-- Claim C10: a self-closing one-liner outside an open multi-line block
that matches neither the single-line comment pattern nor the ignore pattern
is appended, plus a newline, to the current section's codeText — treated as
code, not documentation. -/
theorem c10_self_closing_code (P : LanguageParams) (dox : List Char → Option (List Char))
    (st : ParseState) (l : List Char)
    (h1 : st.inMulti = false)
    (h2 : P.multilineStart l = true) (h3 : P.multilineEnd l = true)
    (h4 : P.commentRegex l = false) (h5 : P.commentsIgnore l = false) :
    parseLine P dox st l =
      { st with
        current :=
          { docs := st.current.docs,
            code := st.current.code ++ l ++ [ '\n' ] } } :=
  parseLine_code P dox st l h1 (by simp [h2, h3]) (by simp [h4]) h5

/-- Witness for C10: "/\* x \*/" is appended to the code of the current
section. -/
theorem c10_witness :
    parseLine jsParams doxNone initState ("/* x */".data) =
      { initState with
        current :=
          { docs := initState.current.docs,
            code := initState.current.code ++ "/* x */".data ++ [ '\n' ] } } :=
  c10_self_closing_code jsParams doxNone initState ("/* x */".data) rfl
    (by decide) (by decide) (by decide) (by decide)

/-- Claim C2 counterexample: the line "//= secret" matches the ignore
pattern, yet when it occurs inside an open multi-line comment block it is
absorbed into the buffer, and when the dox render fails the buffer —
including the ignored line — lands verbatim in a section's docText. -/
theorem c2_cex :
    jsParams.commentsIgnore ("//= secret".data) = true ∧
    (parseSections jsParams doxNone ("/* a\n//= secret\n*/\nx".data)).any
      (fun s => containsSub ("//= secret".data) s.docs) = true := by
  decide

/-- Claim C2 amended: a line matching the ignore pattern contributes to
neither docText nor codeText only when it is processed outside an open
multi-line block and does not itself open a multi-line block; such a line
leaves the parser state completely unchanged.  Inside an open multi-line
block the ignore check is not applied. -/
theorem c2_ignore_dropped (P : LanguageParams) (dox : List Char → Option (List Char))
    (st : ParseState) (l : List Char)
    (h1 : st.inMulti = false) (h2 : P.commentsIgnore l = true)
    (h3 : (P.multilineStart l && !P.multilineEnd l) = false) :
    parseLine P dox st l = st :=
  parseLine_skip P dox st l h1 h3 h2

/-- Witness for C2 amended: outside any multi-line block, the ignore line
"//= x" leaves the state unchanged. -/
theorem c2_witness :
    jsParams.commentsIgnore ("//= x".data) = true ∧
    parseLine jsParams doxNone initState ("//= x".data) = initState :=
  ⟨by decide,
    c2_ignore_dropped jsParams doxNone initState ("//= x".data) rfl (by decide) (by decide)⟩

/-- Claim C9: every section returned by `parseSections` except the final
one has a non-empty codeText — sections are flushed at a boundary only when
code has accumulated, so only the final unconditional push can emit a
section with empty code. -/
theorem c9_nonfinal_code (P : LanguageParams) (dox : List Char → Option (List Char))
    (data : List Char) :
    ∀ s ∈ (parseSections P dox data).dropLast, s.code ≠ [] := by
  intro s hs
  unfold parseSections at hs
  rw [List.dropLast_concat] at hs
  exact foldl_sections_code_ne P dox (splitLines data) initState
    (by intro x hx; simp [initState] at hx) s hs

/-- Witness for C9: on "x\n// c\ny" the first (non-final) section has code
"x\n", which is non-empty. -/
theorem c9_witness :
    { docs := [], code := "x\n".data } ∈
      (parseSections jsParams doxNone ("x\n// c\ny".data)).dropLast ∧
    Section.code { docs := ([] : List Char), code := "x\n".data } ≠ [] :=
  ⟨by decide, c9_nonfinal_code jsParams doxNone ("x\n// c\ny".data) _ (by decide)⟩

/-- Claim C4: at a section boundary (multi-line opener or single-line
comment line) the current section is pushed only if its code is non-empty,
and kept only if its code or its docs is not purely whitespace; and over a
contiguous run of single-line comment lines the section list grows by at
most the one flush of the first line, never once per comment line. -/
theorem c4_boundary_flush :
    (∀ (P : LanguageParams) (dox : List Char → Option (List Char))
        (st : ParseState) (l : List Char),
      st.inMulti = false →
      ((P.multilineStart l && !P.multilineEnd l) = true ∨
        (P.commentRegex l && !P.commentsIgnore l) = true) →
      (st.current.code = [] → (parseLine P dox st l).sections = st.sections) ∧
      (¬st.current.code = [] → allWs st.current.code = true →
        allWs st.current.docs = true →
        (parseLine P dox st l).sections = st.sections) ∧
      (¬st.current.code = [] →
        (allWs st.current.code = false ∨ allWs st.current.docs = false) →
        (parseLine P dox st l).sections = st.sections ++ [st.current])) ∧
    (∀ (P : LanguageParams) (dox : List Char → Option (List Char))
        (ls : List (List Char)) (st : ParseState),
      st.inMulti = false →
      (∀ l ∈ ls, (P.multilineStart l && !P.multilineEnd l) = false ∧
                 (P.commentRegex l && !P.commentsIgnore l) = true) →
      (ls.foldl (parseLine P dox) st).sections = st.sections ∨
      (ls.foldl (parseLine P dox) st).sections = st.sections ++ [st.current]) := by
  constructor
  · intro P dox st l h1 hb
    refine ⟨?_, ?_, ?_⟩
    · intro hc
      rw [parseLine_boundary_sections P dox st l h1 hb, flushSection_empty st hc]
    · intro hc ha hb2
      rw [parseLine_boundary_sections P dox st l h1 hb]
      exact flushSection_sections_ws st hc ha hb2
    · intro hc hw
      rw [parseLine_boundary_sections P dox st l h1 hb]
      exact flushSection_sections_keep st hc hw
  · intro P dox ls st h1 hall
    cases ls with
    | nil => left; rfl
    | cons l ls =>
      rw [List.foldl_cons]
      obtain ⟨ha, hb⟩ := hall l (by simp)
      have hstep := parseLine_comment P dox st l h1 ha hb
      have hrun := commentRun_foldl P dox ls (parseLine P dox st l)
        (by rw [hstep]; show (flushSection st).inMulti = false
            rw [flushSection_inMulti]; exact h1)
        (by rw [hstep]; show (flushSection st).current.code = []
            exact flushSection_current_code st)
        (fun x hx => hall x (by simp [hx]))
      rw [hrun.1, hstep]
      show ((flushSection st).sections = st.sections ∨
        (flushSection st).sections = st.sections ++ [st.current])
      exact flushSection_sections_cases st

/-- Witness for C4: flushing a section with code "x\n" at the comment line
"// c" pushes it; a two-line comment run grows the section list by exactly
one section. -/
theorem c4_witness :
    (parseLine jsParams doxNone
        { sections := [], current := { docs := "d".data, code := "x\n".data },
          inMulti := false, multiLine := [] } ("// c".data)).sections =
      [] ++ [{ docs := "d".data, code := "x\n".data }] ∧
    (((["// a".data, "// b".data]).foldl (parseLine jsParams doxNone)
        { sections := [], current := { docs := [], code := "x\n".data },
          inMulti := false, multiLine := [] }).sections = [] ∨
      ((["// a".data, "// b".data]).foldl (parseLine jsParams doxNone)
        { sections := [], current := { docs := [], code := "x\n".data },
          inMulti := false, multiLine := [] }).sections =
        [] ++ [{ docs := [], code := "x\n".data }]) :=
  ⟨(c4_boundary_flush.1 jsParams doxNone _ _ rfl (Or.inr (by decide))).2.2
      (by decide) (Or.inl (by decide)),
    c4_boundary_flush.2 jsParams doxNone _ _ rfl (by decide)⟩

/-- Claim C1 counterexample: concatenating the codeText of the sections
returned for "\n// c\nx" does not reconstruct the code-branch lines — the
leading blank line reaches the code branch but its whitespace-only section
is dropped at the comment boundary. -/
theorem c1_cex :
    ((parseSections jsParams doxNone ("\n// c\nx".data)).map (fun s => s.code)).flatten ≠
      ((codeLines jsParams false (splitLines ("\n// c\nx".data))).map
        (fun l => l ++ [ '\n' ])).flatten := by
  decide

/-- Claim C1 amended: the concatenated codeText of all flushed-or-final
sections (kept and dropped) reconstructs exactly the code-branch lines with
their newlines, in order; `parseSections` returns exactly the kept ones in
order; and every dropped section is purely whitespace in both code and
docs.  Hence the round-trip holds up to the omission of whitespace-only
code stretches dropped at boundaries whose docs were also whitespace. -/
theorem c1_roundtrip (P : LanguageParams) (dox : List Char → Option (List Char))
    (data : List Char) :
    ((parseChunks P dox data).map (fun c => c.1.code)).flatten =
      ((codeLines P false (splitLines data)).map (fun l => l ++ [ '\n' ])).flatten ∧
    parseSections P dox data = keptChunks (parseChunks P dox data) ∧
    ∀ c ∈ parseChunks P dox data, c.2 = false →
      allWs c.1.code = true ∧ allWs c.1.docs = true := by
  refine ⟨?_, parseSections_eq_keptChunks P dox data, ?_⟩
  · have h := joinCodes_foldl P dox (splitLines data) initStateI
    have h0 : joinCodes initStateI = [] := rfl
    have hm : initStateI.inMulti = false := rfl
    rw [h0, hm, List.nil_append] at h
    unfold parseChunks
    rw [List.map_append, List.flatten_append]
    simp only [joinCodes] at h
    simpa using h
  · intro c hc hfl
    unfold parseChunks at hc
    rcases List.mem_append.mp hc with hc | hc
    · exact foldl_dropped_ws P dox (splitLines data) initStateI
        (by intro x hx; simp [initStateI] at hx) c hc hfl
    · simp at hc
      rw [hc] at hfl
      simp at hfl

/-- Witness for C1: on "\n// c\nx" the whitespace-only section holding the
blank code line is a dropped chunk, and is all-whitespace in code and
docs. -/
theorem c1_witness :
    ({ docs := [], code := [ '\n' ] } , false) ∈
      parseChunks jsParams doxNone ("\n// c\nx".data) ∧
    (allWs (Section.code { docs := [], code := [ '\n' ] }) = true ∧
      allWs (Section.docs { docs := [], code := [ '\n' ] }) = true) :=
  ⟨by decide,
    (c1_roundtrip jsParams doxNone ("\n// c\nx".data)).2.2
      ({ docs := [], code := [ '\n' ] } , false) (by decide) rfl⟩

end Docker
